import Mathlib

/-!
Verification of the MaxLinear MXL371x MoCA PHY driver (`mxl371x.c`).

The driver is shallowly embedded: the MDIO bus primitives (`phy_write`,
`phy_read`, `msleep`) are an abstract capability record `Bus` over a bus
state `σ`, and each C function becomes a Lean function threading that
state.  Machine integers are modelled as `Nat`/`Int` with explicit
masking/truncation where the C code performs it.  C functions returning
`int` status codes return `Int` (negative = errno); output parameters
(`u32 *val`) are modelled by passing the pointed-to value in and
returning the possibly-updated value.
-/

/-! ## Register constants (from the `#define` block of mxl371x.c) -/

def MXL371X_MAX_FW_SIZE : Nat := 4 * 1024 * 1024

def SRE_CPU_SRC_SEL_CSR : Nat := 0x08200010

def MXL371X_FW_BASE_ADDR : Nat := 0x00000000
def MXL371X_FW_STATUS_REG : Nat := 0x08200100
def MXL371X_FW_LOADED : Nat := 1
def MXL371X_FW_RUNNING : Nat := 2
def MXL371X_FW_ERROR : Nat := 4

def MXL371X_MDIO_ADDR_REG : Nat := 0x0e
def MXL371X_MDIO_DATA_REG : Nat := 0x0f

def MOCA_LINK_STATUS_REG : Nat := 0x0c100000
def MOCA_LINK_STATUS_MASK : Nat := 0x07
def MOCA_LINK_PHY_RATE_REG : Nat := 0x0c100004
def MOCA_LINK_MOCA_VER_REG : Nat := 0x0c100008
def MOCA_LINK_NODE_ID_REG : Nat := 0x0c10000c
def MOCA_LINK_NC_NODE_ID_REG : Nat := 0x0c100010
def MOCA_LINK_LOF_REG : Nat := 0x0c100014
def MOCA_LINK_NETWORK_STATE_REG : Nat := 0x0c100018
def MOCA_LINK_ACTIVE_NODES_REG : Nat := 0x0c10001c

def MOCA_STATS_BASE : Nat := 0x0c000000
def MOCA_STATS_TX_TOTAL_PKTS : Nat := MOCA_STATS_BASE + 0x00
def MOCA_STATS_TX_TOTAL_BYTES : Nat := MOCA_STATS_BASE + 0x08
def MOCA_STATS_TX_DROPPED_PKTS : Nat := MOCA_STATS_BASE + 0x10
def MOCA_STATS_TX_BCAST_PKTS : Nat := MOCA_STATS_BASE + 0x18
def MOCA_STATS_TX_MCAST_PKTS : Nat := MOCA_STATS_BASE + 0x20
def MOCA_STATS_RX_TOTAL_PKTS : Nat := MOCA_STATS_BASE + 0x28
def MOCA_STATS_RX_TOTAL_BYTES : Nat := MOCA_STATS_BASE + 0x30
def MOCA_STATS_RX_DROPPED_PKTS : Nat := MOCA_STATS_BASE + 0x38
def MOCA_STATS_RX_ERROR_PKTS : Nat := MOCA_STATS_BASE + 0x40

def MOCA_LINK_UP : Nat := 1

def MOCA_MAC_ADDR_HI : Nat := 0x0c100020
def MOCA_MAC_ADDR_LO : Nat := 0x0c100024

def MOCA_SECURITY_STATUS_REG : Nat := 0x0c100200
def MOCA_SECURITY_ENABLED : Nat := 1

def MXL371X_TSENS_COEFF_A : Nat := 1338680
def MXL371X_TSENS_COEFF_B : Nat := 277770
def MXL371X_TSENS_RSSI_MAX : Nat := 524288

/-- Linux errno value EIO (`-EIO` is returned as `-EIO_code`). -/
def EIO_code : Int := 5
/-- Linux errno value EINVAL. -/
def EINVAL_code : Int := 22
/-- Linux errno value ETIMEDOUT. -/
def ETIMEDOUT_code : Int := 110

/-! ## The abstract MDIO bus capability

`phy_write`/`phy_read` model the kernel helpers of the same name: they
return an `int` (negative = failure; for reads a non-negative return is
the 16-bit register value) together with the successor bus state.
`msleep` models the passage of time on the bus state. -/

structure Bus (σ : Type) where
  phy_write : σ → Nat → Nat → Int × σ
  phy_read : σ → Nat → Int × σ
  msleep : σ → Nat → σ

/-! ## Indirect register transport (mxl371x.c lines 168–229) -/

/-- Embedding of `mxl371x_read_mem32`: two address-register writes, then
two data-register reads (high half first).  `val` is the value the
output pointer holds on entry; it is returned updated only on the
success path, mirroring the C code which assigns `*val` last. -/
def mxl371x_read_mem32 {σ : Type} (B : Bus σ) (s : σ) (addr : Nat) (val : Nat) :
    Int × Nat × σ :=
  let (r, s) := B.phy_write s MXL371X_MDIO_ADDR_REG ((addr >>> 16) &&& 0xffff)
  if r < 0 then (r, val, s) else
  let (r, s) := B.phy_write s (MXL371X_MDIO_ADDR_REG + 1) (addr &&& 0xffff)
  if r < 0 then (r, val, s) else
  let (r, s) := B.phy_read s MXL371X_MDIO_DATA_REG
  if r < 0 then (r, val, s) else
  let data_hi : Nat := r.toNat % 65536
  let (r, s) := B.phy_read s (MXL371X_MDIO_DATA_REG + 1)
  if r < 0 then (r, val, s) else
  let data_lo : Nat := r.toNat % 65536
  (0, (data_hi <<< 16) ||| data_lo, s)

/-- Embedding of `mxl371x_write_mem32`: two address-register writes then
two data-register writes (high half first); the last `phy_write`'s
return value is returned directly, as in the C code. -/
def mxl371x_write_mem32 {σ : Type} (B : Bus σ) (s : σ) (addr : Nat) (val : Nat) :
    Int × σ :=
  let (r, s) := B.phy_write s MXL371X_MDIO_ADDR_REG ((addr >>> 16) &&& 0xffff)
  if r < 0 then (r, s) else
  let (r, s) := B.phy_write s (MXL371X_MDIO_ADDR_REG + 1) (addr &&& 0xffff)
  if r < 0 then (r, s) else
  let (r, s) := B.phy_write s MXL371X_MDIO_DATA_REG ((val >>> 16) &&& 0xffff)
  if r < 0 then (r, s) else
  B.phy_write s (MXL371X_MDIO_DATA_REG + 1) (val &&& 0xffff)

/-- Embedding of `mxl371x_read_mem64`: low word at `addr` first, high
word at `addr + 4` (u32 wraparound) second, composed `(hi <<< 32) ||| lo`.
The locals `val_lo`/`val_hi` are uninitialised `u32`s in C and are only
consumed after a successful read, so they are seeded with 0 here. -/
def mxl371x_read_mem64 {σ : Type} (B : Bus σ) (s : σ) (addr : Nat) (val : Nat) :
    Int × Nat × σ :=
  let (r, val_lo, s) := mxl371x_read_mem32 B s addr 0
  if r < 0 then (r, val, s) else
  let (r, val_hi, s) := mxl371x_read_mem32 B s ((addr + 4) % 4294967296) 0
  if r < 0 then (r, val, s) else
  (0, (val_hi <<< 32) ||| val_lo, s)

/-! ## A fake bus modelling the address/data-register protocol

The device latches the high half of the target address on a write to
the address register, the low half on the following write to
address-register + 1, and then serves the addressed 32-bit memory word
through the data-register pair, high half first.  Because
`MXL371X_MDIO_ADDR_REG + 1 = MXL371X_MDIO_DATA_REG` (0x0f serves as
both address-low and data-high register), the fake bus disambiguates by
protocol phase, exactly as the spec's sequence prescribes. -/

inductive FakePhase where
  | idle : FakePhase
  | gotHi (hi : Nat) : FakePhase
  | addressed (addr : Nat) : FakePhase
  | gotDataHi (addr : Nat) (hi : Nat) : FakePhase
deriving DecidableEq

structure FakeBusState where
  phase : FakePhase
  mem : Nat → Nat

def fakePhyWrite (s : FakeBusState) (reg : Nat) (v : Nat) : Int × FakeBusState :=
  if reg = MXL371X_MDIO_ADDR_REG then
    (0, { s with phase := .gotHi (v &&& 0xffff) })
  else if reg = MXL371X_MDIO_ADDR_REG + 1 then
    -- 0x0f: address-low when an address-high was just latched,
    -- data-high once fully addressed
    match s.phase with
    | .gotHi hi => (0, { s with phase := .addressed ((hi <<< 16) ||| (v &&& 0xffff)) })
    | .addressed a => (0, { s with phase := .gotDataHi a (v &&& 0xffff) })
    | _ => (-EIO_code, s)
  else if reg = MXL371X_MDIO_DATA_REG + 1 then
    match s.phase with
    | .gotDataHi a hi =>
        (0, { phase := .addressed a,
              mem := fun a' => if a' = a then (hi <<< 16) ||| (v &&& 0xffff) else s.mem a' })
    | _ => (-EIO_code, s)
  else (-EIO_code, s)

def fakePhyRead (s : FakeBusState) (reg : Nat) : Int × FakeBusState :=
  if reg = MXL371X_MDIO_DATA_REG then
    match s.phase with
    | .addressed a => (((s.mem a >>> 16) &&& 0xffff : Nat), s)
    | _ => (-EIO_code, s)
  else if reg = MXL371X_MDIO_DATA_REG + 1 then
    match s.phase with
    | .addressed a => ((s.mem a &&& 0xffff : Nat), s)
    | _ => (-EIO_code, s)
  else (-EIO_code, s)

def fakeBus : Bus FakeBusState :=
  { phy_write := fakePhyWrite
    phy_read := fakePhyRead
    msleep := fun s _ => s }

/-! ## Arithmetic helpers for 16-bit half-word composition -/

lemma and_ffff_eq_mod (x : Nat) : x &&& 0xffff = x % 65536 := by
  have h := Nat.and_pow_two_sub_one_eq_mod x 16
  norm_num at h
  exact h

lemma shiftRight16_eq_div (x : Nat) : x >>> 16 = x / 65536 := by
  rw [Nat.shiftRight_eq_div_pow]

lemma lor_halves (a b : Nat) (hb : b < 65536) : (a <<< 16) ||| b = a * 65536 + b := by
  have h := Nat.mul_add_lt_is_or (i := 16) (lt_of_lt_of_le hb (by norm_num)) a
  rw [Nat.shiftLeft_eq, Nat.mul_comm a]
  norm_num at h ⊢
  exact h.symm

/-- Splitting a 32-bit value into 16-bit halves and recombining them is
the identity. -/
lemma recompose16 (x : Nat) (hx : x < 4294967296) :
    ((((x >>> 16) &&& 0xffff) <<< 16) ||| (x &&& 0xffff)) = x := by
  rw [and_ffff_eq_mod, and_ffff_eq_mod, shiftRight16_eq_div]
  have hdiv : x / 65536 % 65536 = x / 65536 := Nat.mod_eq_of_lt (by omega)
  rw [hdiv, lor_halves _ _ (Nat.mod_lt _ (by norm_num))]
  omega

lemma roundtrip16_mod (x : Nat) (hx : x < 4294967296) :
    ((((x >>> 16) &&& 0xffff) % 65536) <<< 16) ||| ((x &&& 0xffff) % 65536) = x := by
  rw [and_ffff_eq_mod, and_ffff_eq_mod, shiftRight16_eq_div,
    Nat.mod_mod_of_dvd _ dvd_rfl, Nat.mod_mod_of_dvd _ dvd_rfl]
  have h : x / 65536 % 65536 = x / 65536 := Nat.mod_eq_of_lt (by omega)
  rw [h, lor_halves _ _ (Nat.mod_lt _ (by norm_num))]
  omega

lemma natCast_lt_zero_false (n : Nat) : ¬ ((n : Int) < 0) :=
  Int.not_lt.mpr (Int.natCast_nonneg n)

/-- **C1** Transport round-trip: over the fake bus that models the
address-register/data-register protocol, `write32(A, v)` followed by
`read32(A)` succeeds and returns exactly `v`, for every 32-bit address
`A` and value `v`, from any initial device phase and memory. -/
theorem C1_transport_roundtrip (ph : FakePhase) (m : Nat → Nat)
    (addr v w : Nat) (_ha : addr < 4294967296) (hv : v < 4294967296) :
    (mxl371x_write_mem32 fakeBus ⟨ph, m⟩ addr v).1 = 0 ∧
    (mxl371x_read_mem32 fakeBus (mxl371x_write_mem32 fakeBus ⟨ph, m⟩ addr v).2 addr w).1 = 0 ∧
    (mxl371x_read_mem32 fakeBus (mxl371x_write_mem32 fakeBus ⟨ph, m⟩ addr v).2 addr w).2.1 = v := by
  simp [mxl371x_write_mem32, mxl371x_read_mem32, fakeBus, fakePhyWrite, fakePhyRead,
    MXL371X_MDIO_ADDR_REG, MXL371X_MDIO_DATA_REG, natCast_lt_zero_false]
  rw [Nat.and_assoc, Nat.and_assoc]
  norm_num
  rw [recompose16 v hv]
  exact roundtrip16_mod v hv

/-- **C1 witness**: concrete instance of the round-trip at address
0x08200100 with value 0xdeadbeef. -/
theorem C1_transport_roundtrip_witness :
    (0x08200100 : Nat) < 4294967296 ∧ (0xdeadbeef : Nat) < 4294967296 ∧
    (mxl371x_read_mem32 fakeBus
        (mxl371x_write_mem32 fakeBus ⟨.idle, fun _ => 0⟩ 0x08200100 0xdeadbeef).2
        0x08200100 0).2.1 = 0xdeadbeef :=
  ⟨by norm_num, by norm_num,
    (C1_transport_roundtrip .idle (fun _ => 0) 0x08200100 0xdeadbeef 0
      (by norm_num) (by norm_num)).2.2⟩

/-- **C9** 64-bit composition law: `read64(A)` performs `read32(A)`
first (the low word, advancing the bus state from `s` to `s1`) and
`read32(A + 4)` second (the high word, from `s1` to `s2`); on success
the result is `(hi <<< 32) ||| lo`, and a failure of either underlying
32-bit read is propagated with the output parameter untouched. -/
theorem C9_read64_composition {σ : Type} (B : Bus σ) (s : σ) (addr val : Nat)
    (r1 : Int) (lo : Nat) (s1 : σ)
    (h1 : mxl371x_read_mem32 B s addr 0 = (r1, lo, s1)) :
    (r1 < 0 → mxl371x_read_mem64 B s addr val = (r1, val, s1)) ∧
    (∀ r2 hi s2, mxl371x_read_mem32 B s1 ((addr + 4) % 4294967296) 0 = (r2, hi, s2) →
      (¬ r1 < 0 → r2 < 0 → mxl371x_read_mem64 B s addr val = (r2, val, s2)) ∧
      (¬ r1 < 0 → ¬ r2 < 0 →
        mxl371x_read_mem64 B s addr val = ((0 : Int), (hi <<< 32) ||| lo, s2))) := by
  constructor
  · intro hneg
    simp [mxl371x_read_mem64, h1, hneg]
  · intro r2 hi s2 h2
    constructor
    · intro hpos hneg
      simp [mxl371x_read_mem64, h1, h2, hpos, hneg]
    · intro hpos1 hpos2
      simp [mxl371x_read_mem64, h1, h2, hpos1, hpos2]

/-- **C9 witness**: on the fake bus with memory `a ↦ a + 1`,
`read64(16)` reads 17 at address 16 and 21 at address 20 and composes
them as `(21 <<< 32) ||| 17`. -/
theorem C9_read64_composition_witness :
    mxl371x_read_mem64 fakeBus ⟨.idle, fun a => a + 1⟩ 16 0 =
      ((0 : Int), (21 <<< 32) ||| 17, FakeBusState.mk (.addressed 20) (fun a => a + 1)) :=
  ((C9_read64_composition fakeBus ⟨.idle, fun a => a + 1⟩ 16 0 0 17
      ⟨.addressed 16, fun a => a + 1⟩ rfl).2 0 21
      ⟨.addressed 20, fun a => a + 1⟩ rfl).2 (by decide) (by decide)

/-- **C10** Error atomicity of the transport reads: whenever
`mxl371x_read_mem32` or `mxl371x_read_mem64` returns an error (negative
code), the output parameter is returned exactly as it was passed in —
it is written only on the success path. -/
theorem C10_read_error_atomicity {σ : Type} (B : Bus σ) (s : σ) (addr val : Nat) :
    ((mxl371x_read_mem32 B s addr val).1 < 0 →
      (mxl371x_read_mem32 B s addr val).2.1 = val) ∧
    ((mxl371x_read_mem64 B s addr val).1 < 0 →
      (mxl371x_read_mem64 B s addr val).2.1 = val) := by
  constructor
  · simp only [mxl371x_read_mem32]
    repeat' split <;> simp_all
  · simp only [mxl371x_read_mem64]
    repeat' split <;> simp_all

/-- An always-failing bus: every 16-bit transfer returns `-EIO`. -/
def failBus : Bus Unit :=
  { phy_write := fun s _ _ => (-EIO_code, s)
    phy_read := fun s _ => (-EIO_code, s)
    msleep := fun s _ => s }

/-- **C10 witness**: on the always-failing bus, a failed `read32` and a
failed `read64` at address 3 leave the output value 7 untouched. -/
theorem C10_read_error_atomicity_witness :
    (mxl371x_read_mem32 failBus () 3 7).1 < 0 ∧
    (mxl371x_read_mem32 failBus () 3 7).2.1 = 7 ∧
    (mxl371x_read_mem64 failBus () 3 7).2.1 = 7 :=
  ⟨by decide,
    (C10_read_error_atomicity failBus () 3 7).1 (by decide),
    (C10_read_error_atomicity failBus () 3 7).2 (by decide)⟩

/-! ## Temperature calibration (mxl371x.c lines 285–297 and 417–445) -/

/-- Conversion of a signed 64-bit intermediate to C `int` (signed 32-bit
two's-complement wraparound), as performed by `return (int)temp;`. -/
def toInt32 (x : Int) : Int := (x + 2147483648) % 4294967296 - 2147483648

/-- Embedding of `mxl371x_calc_temp`.  `t1 - t0` is u32 subtraction, but
it is only evaluated under the guard `t0 ≤ t1` where it agrees with
natural subtraction; the s64 intermediate cannot overflow, and the final
result is converted to `int` (`toInt32`).  `Int.tdiv` is C's
truncating division (the dividend is non-negative here). -/
def mxl371x_calc_temp (t0 t1 : Nat) : Int :=
  if t1 < t0 then -EINVAL_code
  else
    let delta : Int := ((t1 - t0 : Nat) : Int)
    let temp : Int := Int.tdiv (delta * 1338680) 524288 - 277770
    toInt32 temp

/-- Embedding of the `hwmon_temp_input` arm of `mxl371x_hwmon_read`:
`raw` is the outcome of `mxl371x_read_temp_raw` (a collaborator that
either fails with a bus error or yields the two samples), `val` is the
value behind the output pointer, returned updated only on success. -/
def mxl371x_hwmon_read (raw : Except Int (Nat × Nat)) (val : Int) : Int × Int :=
  match raw with
  | .error e => (e, val)
  | .ok (t0, t1) =>
    let temp := mxl371x_calc_temp t0 t1
    if temp = -EINVAL_code then (-EINVAL_code, val)
    else (0, temp)

/-- **C3 counterexample**: at `t0 = 0`, `t1 = 0xffffffff` the claim's
64-bit value is 10966188787, but the function returns the value
truncated to signed 32 bits, −1918713101, because of the `(int)` cast —
so the result does *not* equal the s64 expression for every sample
pair. -/
theorem C3_calc_temp_counterexample :
    mxl371x_calc_temp 0 4294967295 ≠
      Int.tdiv ((4294967295 - 0 : Int) * 1338680) 524288 - 277770 ∧
    mxl371x_calc_temp 0 4294967295 = -1918713101 ∧
    Int.tdiv ((4294967295 - 0 : Int) * 1338680) 524288 - 277770 = 10966188787 := by
  refine ⟨?_, by decide, by decide⟩
  decide

lemma toInt32_eq_self (x : Int) (hlo : -2147483648 ≤ x) (hhi : x < 2147483648) :
    toInt32 x = x := by
  unfold toInt32
  omega

/-- **C3 (amended)**: for samples `t0 ≤ t1` the computed temperature is
the s64 value `(t1 - t0) * 1338680 / 524288 - 277770` truncated to
signed 32-bit `int`; in particular it equals the s64 value itself
whenever that value fits in `int` (as at `t0 = 0`, `t1 = 524288`, where
it is 1060910).  For `t1 < t0` the computation fails with `-EINVAL`
rather than producing a value (the hwmon reader propagates `-EINVAL`
and leaves its output untouched). -/
theorem C3_calc_temp (t0 t1 : Nat) :
    (t0 ≤ t1 →
      mxl371x_calc_temp t0 t1 =
        toInt32 (Int.tdiv (((t1 : Int) - (t0 : Int)) * 1338680) 524288 - 277770) ∧
      (-2147483648 ≤ Int.tdiv (((t1 : Int) - (t0 : Int)) * 1338680) 524288 - 277770 →
        Int.tdiv (((t1 : Int) - (t0 : Int)) * 1338680) 524288 - 277770 < 2147483648 →
        mxl371x_calc_temp t0 t1 =
          Int.tdiv (((t1 : Int) - (t0 : Int)) * 1338680) 524288 - 277770)) ∧
    (t1 < t0 →
      mxl371x_calc_temp t0 t1 = -EINVAL_code ∧
      ∀ v : Int, mxl371x_hwmon_read (.ok (t0, t1)) v = (-EINVAL_code, v)) := by
  constructor
  · intro hle
    have hcast : ((t1 - t0 : Nat) : Int) = (t1 : Int) - (t0 : Int) := by
      omega
    have hnot : ¬ t1 < t0 := by omega
    constructor
    · simp [mxl371x_calc_temp, hnot, hcast]
    · intro hlo hhi
      simp [mxl371x_calc_temp, hnot, hcast, toInt32_eq_self _ hlo hhi]
  · intro hlt
    have hc : mxl371x_calc_temp t0 t1 = -EINVAL_code := by
      simp [mxl371x_calc_temp, hlt]
    exact ⟨hc, fun v => by simp [mxl371x_hwmon_read, hc]⟩

/-- **C3 witness**: `calc(0, 524288) = 1060910` (the s64 value fits in
`int`), and `calc(100, 50) = -EINVAL` with the hwmon reader leaving its
output value 9 untouched. -/
theorem C3_calc_temp_witness :
    mxl371x_calc_temp 0 524288 = 1060910 ∧
    mxl371x_calc_temp 100 50 = -EINVAL_code ∧
    mxl371x_hwmon_read (.ok (100, 50)) 9 = (-EINVAL_code, 9) := by
  refine ⟨?_, ?_, ?_⟩
  · have h := ((C3_calc_temp 0 524288).1 (by norm_num)).2 (by decide) (by decide)
    rw [h]
    decide
  · exact ((C3_calc_temp 100 50).2 (by norm_num)).1
  · exact ((C3_calc_temp 100 50).2 (by norm_num)).2 9

/-! ## Driver private state (`struct mxl371x_priv`) -/

structure mxl371x_stats_s where
  tx_packets : Nat
  tx_bytes : Nat
  tx_dropped : Nat
  tx_broadcast : Nat
  tx_multicast : Nat
  rx_packets : Nat
  rx_bytes : Nat
  rx_dropped : Nat
  rx_errors : Nat
deriving DecidableEq

structure mxl371x_priv where
  fw_loaded : Bool
  link_status : Nat
  moca_version : Nat
  phy_rate : Nat
  node_id : Nat
  nc_node_id : Nat
  lof : Nat
  network_state : Nat
  active_nodes : Nat
  security_enabled : Bool
  stats : mxl371x_stats_s
deriving DecidableEq

/-! ## Firmware loader (mxl371x.c lines 494–518 and 841–949) -/

/-- Embedding of `mxl371x_check_firmware_running`: read the firmware
status register; a failed read and the error bit both yield 0 (reload
path), the running bit yields 1 (warm boot). -/
def mxl371x_check_firmware_running {σ : Type} (B : Bus σ) (s : σ) : Nat × σ :=
  let (r, fw_status, s) := mxl371x_read_mem32 B s MXL371X_FW_STATUS_REG 0
  if r < 0 then (0, s)
  else if fw_status &&& MXL371X_FW_RUNNING ≠ 0 then (1, s)
  else if fw_status &&& MXL371X_FW_ERROR ≠ 0 then (0, s)
  else (0, s)

/-- The inner byte-packing loop of the firmware upload: a 32-bit word
built little-endian from `data[i] .. data[i+3]`, stopping at the end of
the buffer (so a partial trailing word is zero-padded). -/
def fw_word (data : List Nat) (i : Nat) : Nat :=
  (List.range 4).foldl
    (fun w j => if i + j < data.length then w ||| (data.getD (i + j) 0 <<< (j * 8)) else w) 0

/-- The firmware upload loop (lines 886–903), generic in the 32-bit
write capability `wr` (instantiated with `mxl371x_write_mem32` in
`mxl371x_load_firmware`): writes `fw_word data i` at
`MXL371X_FW_BASE_ADDR + i` for `i = 0, 4, 8, …`, aborting on the first
failed write. -/
def mxl371x_upload_fw {σ : Type} (wr : σ → Nat → Nat → Int × σ)
    (data : List Nat) (s : σ) (i : Nat) : Int × σ :=
  if _h : i < data.length then
    let (r, s') := wr s (MXL371X_FW_BASE_ADDR + i) (fw_word data i)
    if r < 0 then (r, s')
    else mxl371x_upload_fw wr data s' (i + 4)
  else (0, s)
termination_by data.length - i
decreasing_by omega

/-- The ready-poll loop (lines 919–941), generic in the status-register
read capability `rd` and the sleep capability.  The `Nat` argument
after the bus state is the local `fw_status` (threaded through failed
reads unchanged, per `mxl371x_read_mem32`'s output-parameter
semantics); the last argument is the remaining iteration count (50 at
the top).  Returns (ret, firmware-started flag, last `fw_status`,
state). -/
def mxl371x_fw_poll {σ : Type} (rd : σ → Nat → Int × Nat × σ) (sleep : σ → Nat → σ) :
    σ → Nat → Nat → Int × Bool × Nat × σ
  | s, fw_status, 0 => (-ETIMEDOUT_code, false, fw_status, s)
  | s, fw_status, n + 1 =>
    let (r, v, s) := rd s fw_status
    if r < 0 then (r, false, v, s)
    else if v &&& MXL371X_FW_RUNNING ≠ 0 then (0, true, v, s)
    else if v &&& MXL371X_FW_ERROR ≠ 0 then (-EIO_code, false, v, s)
    else mxl371x_fw_poll rd sleep (sleep s 100) v n

/-- Embedding of `mxl371x_load_firmware`.  `fw_request` models the
`request_firmware` collaborator (error code or the image bytes);
`release_firmware` has no bus-visible effect and is omitted. -/
def mxl371x_load_firmware {σ : Type} (B : Bus σ) (fw_request : Except Int (List Nat))
    (p : mxl371x_priv) (s : σ) : Int × mxl371x_priv × σ :=
  if p.fw_loaded then (0, p, s)
  else
    let (run, s) := mxl371x_check_firmware_running B s
    if run ≠ 0 then (0, { p with fw_loaded := true }, s)
    else
      match fw_request with
      | .error e => (e, p, s)
      | .ok data =>
        if data.length = 0 ∨ data.length > MXL371X_MAX_FW_SIZE then (-EINVAL_code, p, s)
        else
          let (r, s) := mxl371x_write_mem32 B s SRE_CPU_SRC_SEL_CSR 0x8
          if r < 0 then (r, p, s)
          else
            let s := B.msleep s 100
            let (r, s) := mxl371x_upload_fw (mxl371x_write_mem32 B) data s 0
            if r < 0 then (r, p, s)
            else
              let (r, s) := mxl371x_write_mem32 B s SRE_CPU_SRC_SEL_CSR 0x0
              if r < 0 then (r, p, s)
              else
                let s := B.msleep s 500
                let pr :=
                  mxl371x_fw_poll
                    (fun s v => mxl371x_read_mem32 B s MXL371X_FW_STATUS_REG v)
                    B.msleep s 0 50
                (pr.1, if pr.2.1 then { p with fw_loaded := true } else p, pr.2.2.2)

/-- A bus that counts every 16-bit transfer (reads return value 0). -/
def countBus : Bus Nat :=
  { phy_write := fun n _ _ => (0, n + 1)
    phy_read := fun n _ => (0, n + 1)
    msleep := fun n _ => n }

/-- **C5** Loader idempotence: when the firmware state is already
loaded, `mxl371x_load_firmware` returns success immediately with the
private state and the bus state completely untouched — in particular,
zero bus operations are performed. -/
theorem C5_loader_idempotent {σ : Type} (B : Bus σ) (fw_request : Except Int (List Nat))
    (p : mxl371x_priv) (s : σ) (h : p.fw_loaded = true) :
    mxl371x_load_firmware B fw_request p s = (0, p, s) := by
  simp [mxl371x_load_firmware, h]

/-- A concrete already-loaded private state. -/
def privLoaded : mxl371x_priv :=
  { fw_loaded := true
    link_status := 1, moca_version := 0x25, phy_rate := 0, node_id := 0
    nc_node_id := 0, lof := 0, network_state := 0, active_nodes := 0
    security_enabled := false
    stats := ⟨0, 0, 0, 0, 0, 0, 0, 0, 0⟩ }

/-- **C5 witness**: on the transfer-counting bus starting at count 0, a
second loader invocation with firmware already loaded returns success
and the count stays 0 — no bus reads and no bus writes happened. -/
theorem C5_loader_idempotent_witness :
    mxl371x_load_firmware countBus (.ok [1, 2, 3, 4]) privLoaded 0 = (0, privLoaded, 0) :=
  C5_loader_idempotent countBus (.ok [1, 2, 3, 4]) privLoaded 0 rfl

/-! ## C2: the ready-poll loop against a scheduled status register -/

/-- A status-register read whose outcome on the `k`-th poll is given by
`sched k`: `none` is a failed bus read (leaving the threaded
`fw_status` value untouched, as `mxl371x_read_mem32` does), `some v`
is a successful read of value `v`.  The state is the number of reads
performed so far. -/
def statusRd (sched : Nat → Option Nat) : Nat → Nat → Int × Nat × Nat :=
  fun k val =>
    match sched k with
    | none => (-EIO_code, val, k + 1)
    | some v => (0, v, k + 1)

/-- One quiet poll step advances the loop to the next read index. -/
lemma fw_poll_quiet_step (sched : Nat → Option Nat) (k val n v : Nat)
    (hv : sched k = some v) (hrun : v &&& MXL371X_FW_RUNNING = 0)
    (herr : v &&& MXL371X_FW_ERROR = 0) :
    mxl371x_fw_poll (statusRd sched) (fun k _ => k) k val (n + 1) =
      mxl371x_fw_poll (statusRd sched) (fun k _ => k) (k + 1) v n := by
  simp [mxl371x_fw_poll, statusRd, hv, hrun, herr]

/-- Quiet polls up to index `j` move the loop from read index 0 to
read index `j` (with some threaded `fw_status` value `w`). -/
lemma fw_poll_skip (sched : Nat → Option Nat) (j : Nat)
    (hq : ∀ i, i < j → ∃ v, sched i = some v ∧
      v &&& MXL371X_FW_RUNNING = 0 ∧ v &&& MXL371X_FW_ERROR = 0) :
    ∀ n val, j ≤ n → ∃ w,
      mxl371x_fw_poll (statusRd sched) (fun k _ => k) 0 val n =
        mxl371x_fw_poll (statusRd sched) (fun k _ => k) j w (n - j) := by
  induction j with
  | zero => exact fun n val _ => ⟨val, by simp⟩
  | succ j ih =>
    intro n val hn
    obtain ⟨w, hw⟩ := ih (fun i hi => hq i (by omega)) n val (by omega)
    obtain ⟨v, hv, hrun, herr⟩ := hq j (by omega)
    have hsub : n - j = (n - (j + 1)) + 1 := by omega
    rw [hw, hsub, fw_poll_quiet_step sched j w _ v hv hrun herr]
    exact ⟨v, rfl⟩

/-- **C2** Firmware ready-polling: against a status register scheduled
by `sched`, starting from a release from reset, the loop polls at most
50 times; if the first `k` polls (k < 50) are quiet (successful reads
showing neither the running nor the error bit), then: a running bit on
poll `k` yields success after exactly `k + 1` reads; an error bit with
the running bit clear on poll `k` yields `-EIO` after exactly `k + 1`
reads; and if all 50 polls are quiet the loop returns `-ETIMEDOUT`
after exactly 50 reads. -/
theorem C2_fw_ready_poll (sched : Nat → Option Nat) :
    (∀ k, k < 50 →
      (∀ i, i < k → ∃ v, sched i = some v ∧
        v &&& MXL371X_FW_RUNNING = 0 ∧ v &&& MXL371X_FW_ERROR = 0) →
      ∀ v, sched k = some v →
        (v &&& MXL371X_FW_RUNNING ≠ 0 →
          mxl371x_fw_poll (statusRd sched) (fun k _ => k) 0 0 50 = (0, true, v, k + 1)) ∧
        (v &&& MXL371X_FW_RUNNING = 0 → v &&& MXL371X_FW_ERROR ≠ 0 →
          mxl371x_fw_poll (statusRd sched) (fun k _ => k) 0 0 50 =
            (-EIO_code, false, v, k + 1))) ∧
    ((∀ i, i < 50 → ∃ v, sched i = some v ∧
        v &&& MXL371X_FW_RUNNING = 0 ∧ v &&& MXL371X_FW_ERROR = 0) →
      (mxl371x_fw_poll (statusRd sched) (fun k _ => k) 0 0 50).1 = -ETIMEDOUT_code ∧
      (mxl371x_fw_poll (statusRd sched) (fun k _ => k) 0 0 50).2.1 = false ∧
      (mxl371x_fw_poll (statusRd sched) (fun k _ => k) 0 0 50).2.2.2 = 50) := by
  constructor
  · intro k hk hq v hv
    obtain ⟨w, hw⟩ := fw_poll_skip sched k hq 50 0 (by omega)
    have hsub : 50 - k = (49 - k) + 1 := by omega
    constructor
    · intro hrun
      rw [hw, hsub]
      simp [mxl371x_fw_poll, statusRd, hv, hrun]
    · intro hrun herr
      rw [hw, hsub]
      simp [mxl371x_fw_poll, statusRd, hv, hrun, herr]
  · intro hq
    obtain ⟨w, hw⟩ := fw_poll_skip sched 50 hq 50 0 (by omega)
    rw [hw]
    simp [mxl371x_fw_poll]

/-- **C2 witness**: a status register that reports the running bit on
the 3rd poll (read index 2) and is otherwise quiet yields success
after exactly 3 reads; one that never reports running or error times
out with exactly 50 reads. -/
theorem C2_fw_ready_poll_witness :
    mxl371x_fw_poll (statusRd (fun k => if k = 2 then some 2 else some 0))
      (fun k _ => k) 0 0 50 = (0, true, 2, 3) ∧
    (mxl371x_fw_poll (statusRd (fun _ => some 0)) (fun k _ => k) 0 0 50).1 =
      -ETIMEDOUT_code ∧
    (mxl371x_fw_poll (statusRd (fun _ => some 0)) (fun k _ => k) 0 0 50).2.2.2 = 50 := by
  refine ⟨?_, ?_, ?_⟩
  · have h := ((C2_fw_ready_poll (fun k => if k = 2 then some 2 else some 0)).1 2
      (by norm_num)
      (fun i hi => ⟨0, by simp [show ¬ i = 2 by omega], by decide, by decide⟩)
      2 (by simp)).1 (by decide)
    simpa using h
  · have h := (C2_fw_ready_poll (fun _ => some 0)).2
      (fun i _ => ⟨0, rfl, by decide, by decide⟩)
    exact h.1
  · have h := (C2_fw_ready_poll (fun _ => some 0)).2
      (fun i _ => ⟨0, rfl, by decide, by decide⟩)
    exact h.2.2

/-! ## C4: the upload loop against a write-recording bus -/

/-- A 32-bit write capability that records every (address, word) pair. -/
def recWr : List (Nat × Nat) → Nat → Nat → Int × List (Nat × Nat) :=
  fun tr addr v => (0, tr ++ [(addr, v)])

/-- The list of (address, word) writes the upload loop performs from
offset `i`. -/
def uploadTrace (data : List Nat) (i : Nat) : List (Nat × Nat) :=
  if _h : i < data.length then
    (MXL371X_FW_BASE_ADDR + i, fw_word data i) :: uploadTrace data (i + 4)
  else []
termination_by data.length - i
decreasing_by omega

lemma upload_fw_rec (data : List Nat) :
    ∀ m i acc, data.length ≤ i + m →
      mxl371x_upload_fw recWr data acc i = (0, acc ++ uploadTrace data i) := by
  intro m
  induction m with
  | zero =>
    intro i acc hle
    have hni : ¬ i < data.length := by omega
    rw [mxl371x_upload_fw, uploadTrace]
    simp [hni]
  | succ m ih =>
    intro i acc hle
    rw [mxl371x_upload_fw, uploadTrace]
    by_cases h : i < data.length
    · simp only [h, dif_pos, recWr]
      rw [if_neg (by norm_num), ih (i + 4) (acc ++ [(MXL371X_FW_BASE_ADDR + i, fw_word data i)]) (by omega)]
      simp
    · simp [h]

lemma uploadTrace_length (data : List Nat) :
    ∀ m i, data.length ≤ i + m →
      (uploadTrace data i).length = (data.length - i + 3) / 4 := by
  intro m
  induction m with
  | zero =>
    intro i hle
    rw [uploadTrace]
    simp only [dif_neg (by omega : ¬ i < data.length), List.length_nil]
    omega
  | succ m ih =>
    intro i hle
    rw [uploadTrace]
    by_cases h : i < data.length
    · simp only [h, dif_pos, List.length_cons, ih (i + 4) (by omega)]
      omega
    · simp only [h, dif_neg, not_false_iff, List.length_nil]
      omega

lemma uploadTrace_get (data : List Nat) :
    ∀ m i k (hk : k < (uploadTrace data i).length), data.length ≤ i + m →
      (uploadTrace data i).get ⟨k, hk⟩ =
        (MXL371X_FW_BASE_ADDR + (i + 4 * k), fw_word data (i + 4 * k)) := by
  intro m
  induction m with
  | zero =>
    intro i k hk hle
    rw [uploadTrace] at hk
    simp only [dif_neg (by omega : ¬ i < data.length), List.length_nil] at hk
    omega
  | succ m ih =>
    intro i k hk hle
    by_cases h : i < data.length
    · have hcons : uploadTrace data i =
          (MXL371X_FW_BASE_ADDR + i, fw_word data i) :: uploadTrace data (i + 4) := by
        rw [uploadTrace]
        simp [h]
      rcases k with _ | k
      · simp [hcons]
      · have hk' : k < (uploadTrace data (i + 4)).length := by
          have := hk
          simp only [hcons, List.length_cons] at this
          omega
        have hrec := ih (i + 4) k hk' (by omega)
        have hget : (uploadTrace data i).get ⟨k + 1, hk⟩ =
            (uploadTrace data (i + 4)).get ⟨k, hk'⟩ := by
          simp [hcons]
        rw [hget, hrec]
        congr 2 <;> omega
    · exfalso
      rw [uploadTrace] at hk
      simp [h] at hk

lemma lor_shift (a b k : Nat) (ha : a < 2 ^ k) : a ||| (b <<< k) = a + b * 2 ^ k := by
  have h := Nat.mul_add_lt_is_or ha b
  rw [Nat.shiftLeft_eq, Nat.lor_comm, Nat.mul_comm b, ← h]
  ring

lemma getD_out (l : List Nat) (n : Nat) (h : l.length ≤ n) : l.getD n 0 = 0 := by
  simp [List.getD_eq_getElem?_getD, List.getElem?_eq_none h]

lemma getD_byte_lt (l : List Nat) (n : Nat) (hb : ∀ b ∈ l, b < 256) :
    l.getD n 0 < 256 := by
  by_cases h : n < l.length
  · have he : l.getD n 0 = l[n] := by
      simp [List.getD_eq_getElem?_getD, List.getElem?_eq_getElem h]
    rw [he]
    exact hb _ (List.getElem_mem h)
  · rw [getD_out l n (by omega)]
    norm_num

/-- `fw_word` is little-endian byte packing: byte `i` is the least
significant, and bytes past the end of the buffer contribute zero (the
partial trailing word is zero-padded in its upper bytes). -/
lemma fw_word_eq (data : List Nat) (i : Nat) (hb : ∀ b ∈ data, b < 256) :
    fw_word data i =
      data.getD i 0 + 256 * data.getD (i + 1) 0 +
        65536 * data.getD (i + 2) 0 + 16777216 * data.getD (i + 3) 0 := by
  have h0 := getD_byte_lt data i hb
  have h1 := getD_byte_lt data (i + 1) hb
  have h2 := getD_byte_lt data (i + 2) hb
  have hr : List.range 4 = [0, 1, 2, 3] := rfl
  rw [fw_word, hr]
  simp only [List.foldl, Nat.add_zero, Nat.zero_mul, Nat.one_mul, Nat.reduceMul,
    Nat.shiftLeft_zero, Nat.zero_or]
  by_cases c0 : i < data.length
  · by_cases c1 : i + 1 < data.length
    · by_cases c2 : i + 2 < data.length
      · by_cases c3 : i + 3 < data.length
        · simp only [if_pos c0, if_pos c1, if_pos c2, if_pos c3]
          rw [lor_shift _ _ 8 (by omega), lor_shift _ _ 16 (by omega),
            lor_shift _ _ 24 (by omega)]
          omega
        · simp only [if_pos c0, if_pos c1, if_pos c2, if_neg c3]
          rw [lor_shift _ _ 8 (by omega), lor_shift _ _ 16 (by omega),
            getD_out data (i + 3) (by omega)]
          omega
      · simp only [if_pos c0, if_pos c1, if_neg c2, if_neg (by omega : ¬ i + 3 < data.length)]
        rw [lor_shift _ _ 8 (by omega), getD_out data (i + 2) (by omega),
          getD_out data (i + 3) (by omega)]
        omega
    · simp only [if_pos c0, if_neg c1, if_neg (by omega : ¬ i + 2 < data.length),
        if_neg (by omega : ¬ i + 3 < data.length)]
      rw [getD_out data (i + 1) (by omega), getD_out data (i + 2) (by omega),
        getD_out data (i + 3) (by omega)]
      omega
  · simp only [if_neg c0, if_neg (by omega : ¬ i + 1 < data.length),
      if_neg (by omega : ¬ i + 2 < data.length), if_neg (by omega : ¬ i + 3 < data.length)]
    rw [getD_out data i (by omega), getD_out data (i + 1) (by omega),
      getD_out data (i + 2) (by omega), getD_out data (i + 3) (by omega)]

/-- **C4** Upload chunking: for a firmware buffer of `N` bytes
(`0 < N ≤ 4 MiB`, bytes < 256), the upload loop performs exactly
`⌈N / 4⌉` 32-bit writes, all successful, at consecutive word addresses
starting from the device base address, each word packed little-endian
from the buffer bytes with any partial trailing word zero-padded in its
upper bytes. -/
theorem C4_upload_chunking (data : List Nat) (hb : ∀ b ∈ data, b < 256)
    (_hpos : 0 < data.length) (_hmax : data.length ≤ MXL371X_MAX_FW_SIZE) :
    (mxl371x_upload_fw recWr data [] 0).1 = 0 ∧
    (mxl371x_upload_fw recWr data [] 0).2.length = (data.length + 3) / 4 ∧
    ∀ k, k < (data.length + 3) / 4 →
      (mxl371x_upload_fw recWr data [] 0).2.getD k (0, 0) =
        (MXL371X_FW_BASE_ADDR + 4 * k,
          data.getD (4 * k) 0 + 256 * data.getD (4 * k + 1) 0 +
            65536 * data.getD (4 * k + 2) 0 + 16777216 * data.getD (4 * k + 3) 0) := by
  have hrec := upload_fw_rec data data.length 0 [] (by omega)
  have hlen := uploadTrace_length data data.length 0 (by omega)
  have hlen' : (mxl371x_upload_fw recWr data [] 0).2.length = (data.length + 3) / 4 := by
    rw [hrec]
    simpa using hlen
  refine ⟨by rw [hrec], hlen', ?_⟩
  intro k hk
  have hk' : k < (uploadTrace data 0).length := by
    have := hlen'
    rw [hrec] at this
    simpa using this ▸ hk
  have hget := uploadTrace_get data data.length 0 k hk' (by omega)
  have hfw := fw_word_eq data (4 * k) hb
  have hD : (uploadTrace data 0).getD k (0, 0) = (uploadTrace data 0).get ⟨k, hk'⟩ := by
    rw [List.getD_eq_getElem?_getD, List.getElem?_eq_getElem hk']
    simp [List.get_eq_getElem]
  rw [hrec]
  simp only [List.nil_append]
  rw [hD, hget]
  simp only [Nat.zero_add]
  rw [hfw]

/-- **C4 witness**: a 6-byte buffer `[1, 2, 3, 4, 5, 6]` produces
exactly 2 writes; the second word is `0x00000605` — its upper 2 bytes
zero-padded — at word address 4. -/
theorem C4_upload_chunking_witness :
    (mxl371x_upload_fw recWr [1, 2, 3, 4, 5, 6] [] 0).2.length = 2 ∧
    (mxl371x_upload_fw recWr [1, 2, 3, 4, 5, 6] [] 0).2.getD 1 (0, 0) = (4, 0x00000605) ∧
    (0x00000605 : Nat) < 65536 := by
  have h := C4_upload_chunking [1, 2, 3, 4, 5, 6] (by decide) (by decide) (by decide)
  refine ⟨by rw [h.2.1]; decide, ?_, by norm_num⟩
  have hget := h.2.2 1 (by norm_num)
  rw [hget]
  decide

/-! ## Batch status/statistics readers (mxl371x.c lines 300–384) -/

/-- Embedding of `mxl371x_read_moca_status`, generic in the 32-bit read
capability `rd32` (instantiated with `mxl371x_read_mem32` over a bus in
the driver): 9 independent reads; each success updates its field, each
failure sets `ret = -EIO` and leaves the field alone; the local `val`
is threaded through all reads (unchanged by failed reads). -/
def mxl371x_read_moca_status {σ : Type} (rd32 : σ → Nat → Nat → Int × Nat × σ)
    (p : mxl371x_priv) (s : σ) : Int × mxl371x_priv × σ :=
  let ret : Int := 0
  let (r, val, s) := rd32 s MOCA_LINK_STATUS_REG 0
  let (ret, p) := if r = 0 then (ret, { p with link_status := val &&& MOCA_LINK_STATUS_MASK })
    else (-EIO_code, p)
  let (r, val, s) := rd32 s MOCA_LINK_PHY_RATE_REG val
  let (ret, p) := if r = 0 then (ret, { p with phy_rate := val &&& 0xffff })
    else (-EIO_code, p)
  let (r, val, s) := rd32 s MOCA_LINK_MOCA_VER_REG val
  let (ret, p) := if r = 0 then (ret, { p with moca_version := val &&& 0xff })
    else (-EIO_code, p)
  let (r, val, s) := rd32 s MOCA_LINK_NODE_ID_REG val
  let (ret, p) := if r = 0 then (ret, { p with node_id := val &&& 0xff })
    else (-EIO_code, p)
  let (r, val, s) := rd32 s MOCA_LINK_NC_NODE_ID_REG val
  let (ret, p) := if r = 0 then (ret, { p with nc_node_id := val &&& 0xff })
    else (-EIO_code, p)
  let (r, val, s) := rd32 s MOCA_LINK_LOF_REG val
  let (ret, p) := if r = 0 then (ret, { p with lof := val })
    else (-EIO_code, p)
  let (r, val, s) := rd32 s MOCA_LINK_NETWORK_STATE_REG val
  let (ret, p) := if r = 0 then (ret, { p with network_state := val &&& 0xff })
    else (-EIO_code, p)
  let (r, val, s) := rd32 s MOCA_LINK_ACTIVE_NODES_REG val
  let (ret, p) := if r = 0 then (ret, { p with active_nodes := val })
    else (-EIO_code, p)
  let (r, val, s) := rd32 s MOCA_SECURITY_STATUS_REG val
  let (ret, p) := if r = 0 then
      (ret, { p with security_enabled := decide (val &&& MOCA_SECURITY_ENABLED ≠ 0) })
    else (-EIO_code, p)
  (ret, p, s)

/-- Embedding of `mxl371x_update_stats`, generic in the 64-bit read
capability `rd64`: 9 counter reads, each writing its field through the
output pointer (so a failed read re-assigns the previous value), with
the error codes accumulated by C `ret |= …` (two's-complement bitwise
or, `Int.lor`). -/
def mxl371x_update_stats {σ : Type} (rd64 : σ → Nat → Nat → Int × Nat × σ)
    (p : mxl371x_priv) (s : σ) : Int × mxl371x_priv × σ :=
  let (r1, v, s) := rd64 s MOCA_STATS_TX_TOTAL_PKTS p.stats.tx_packets
  let p := { p with stats.tx_packets := v }
  let (r2, v, s) := rd64 s MOCA_STATS_TX_TOTAL_BYTES p.stats.tx_bytes
  let p := { p with stats.tx_bytes := v }
  let (r3, v, s) := rd64 s MOCA_STATS_TX_DROPPED_PKTS p.stats.tx_dropped
  let p := { p with stats.tx_dropped := v }
  let (r4, v, s) := rd64 s MOCA_STATS_TX_BCAST_PKTS p.stats.tx_broadcast
  let p := { p with stats.tx_broadcast := v }
  let (r5, v, s) := rd64 s MOCA_STATS_TX_MCAST_PKTS p.stats.tx_multicast
  let p := { p with stats.tx_multicast := v }
  let (r6, v, s) := rd64 s MOCA_STATS_RX_TOTAL_PKTS p.stats.rx_packets
  let p := { p with stats.rx_packets := v }
  let (r7, v, s) := rd64 s MOCA_STATS_RX_TOTAL_BYTES p.stats.rx_bytes
  let p := { p with stats.rx_bytes := v }
  let (r8, v, s) := rd64 s MOCA_STATS_RX_DROPPED_PKTS p.stats.rx_dropped
  let p := { p with stats.rx_dropped := v }
  let (r9, v, s) := rd64 s MOCA_STATS_RX_ERROR_PKTS p.stats.rx_errors
  let p := { p with stats.rx_errors := v }
  let ret := Int.lor (Int.lor (Int.lor (Int.lor (Int.lor (Int.lor (Int.lor
    (Int.lor r1 r2) r3) r4) r5) r6) r7) r8) r9
  (ret, p, s)

/-! ## C7: the readers against a scheduled memory-read capability -/

/-- Return code of a scheduled read outcome. -/
def schedRet (o : Option Nat) : Int :=
  match o with
  | none => -EIO_code
  | some _ => 0

/-- Value produced by a scheduled read outcome: a failed read leaves
the threaded value untouched (the error atomicity of
`mxl371x_read_mem32`/`64`, claim C10), a successful one yields the
scheduled value. -/
def schedVal (o : Option Nat) (val : Nat) : Nat :=
  match o with
  | none => val
  | some v => v

/-- A 32/64-bit memory-read capability driven by a finite schedule of
outcomes; the state records the outcomes still pending and the
addresses attempted so far.  An exhausted schedule fails. -/
def listMemRd (st : List (Option Nat) × List Nat) (addr : Nat) (val : Nat) :
    Int × Nat × (List (Option Nat) × List Nat) :=
  (schedRet (st.1.headD none), schedVal (st.1.headD none) val,
    (st.1.tail, st.2 ++ [addr]))

lemma fst_ite {α β : Type} (c : Prop) [Decidable c] (a b : α × β) :
    (if c then a else b).1 = if c then a.1 else b.1 :=
  apply_ite Prod.fst c a b

lemma snd_ite {α β : Type} (c : Prop) [Decidable c] (a b : α × β) :
    (if c then a else b).2 = if c then a.2 else b.2 :=
  apply_ite Prod.snd c a b

lemma ret_step_lt (o : Option Nat) (ret : Int) :
    ((if schedRet o = 0 then ret else -EIO_code) < 0) ↔ (o = none ∨ ret < 0) := by
  cases o <;> simp [schedRet, EIO_code]

lemma schedRet_lt_zero (o : Option Nat) : schedRet o < 0 ↔ o = none := by
  cases o <;> simp [schedRet, EIO_code]

lemma ite_fw_loaded (c : Prop) [Decidable c] (a b : mxl371x_priv) :
    (if c then a else b).fw_loaded = if c then a.fw_loaded else b.fw_loaded :=
  apply_ite mxl371x_priv.fw_loaded c a b

lemma ite_link_status (c : Prop) [Decidable c] (a b : mxl371x_priv) :
    (if c then a else b).link_status = if c then a.link_status else b.link_status :=
  apply_ite mxl371x_priv.link_status c a b

lemma ite_moca_version (c : Prop) [Decidable c] (a b : mxl371x_priv) :
    (if c then a else b).moca_version = if c then a.moca_version else b.moca_version :=
  apply_ite mxl371x_priv.moca_version c a b

lemma ite_phy_rate (c : Prop) [Decidable c] (a b : mxl371x_priv) :
    (if c then a else b).phy_rate = if c then a.phy_rate else b.phy_rate :=
  apply_ite mxl371x_priv.phy_rate c a b

lemma ite_node_id (c : Prop) [Decidable c] (a b : mxl371x_priv) :
    (if c then a else b).node_id = if c then a.node_id else b.node_id :=
  apply_ite mxl371x_priv.node_id c a b

lemma ite_nc_node_id (c : Prop) [Decidable c] (a b : mxl371x_priv) :
    (if c then a else b).nc_node_id = if c then a.nc_node_id else b.nc_node_id :=
  apply_ite mxl371x_priv.nc_node_id c a b

lemma ite_lof (c : Prop) [Decidable c] (a b : mxl371x_priv) :
    (if c then a else b).lof = if c then a.lof else b.lof :=
  apply_ite mxl371x_priv.lof c a b

lemma ite_network_state (c : Prop) [Decidable c] (a b : mxl371x_priv) :
    (if c then a else b).network_state = if c then a.network_state else b.network_state :=
  apply_ite mxl371x_priv.network_state c a b

lemma ite_active_nodes (c : Prop) [Decidable c] (a b : mxl371x_priv) :
    (if c then a else b).active_nodes = if c then a.active_nodes else b.active_nodes :=
  apply_ite mxl371x_priv.active_nodes c a b

lemma ite_security_enabled (c : Prop) [Decidable c] (a b : mxl371x_priv) :
    (if c then a else b).security_enabled =
      if c then a.security_enabled else b.security_enabled :=
  apply_ite mxl371x_priv.security_enabled c a b

lemma ite_stats (c : Prop) [Decidable c] (a b : mxl371x_priv) :
    (if c then a else b).stats = if c then a.stats else b.stats :=
  apply_ite mxl371x_priv.stats c a b

lemma int_lor_lt_zero (a b : Int) : Int.lor a b < 0 ↔ a < 0 ∨ b < 0 := by
  cases a <;> cases b <;>
    simp [Int.lor, Int.negSucc_lt_zero, Int.ofNat_nonneg, not_lt.mpr]

set_option maxHeartbeats 2000000 in
/-- **C7** Best-effort batch reads: for every pattern of per-read
outcomes (`o i` for the 9 status reads, `q i` for the 9 statistics
counter reads — `none` a failed read, `some v` a successful read of
`v`), both readers attempt all 9 reads at the 9 fixed register
addresses in order; every field whose read succeeded is updated (with
the source's masking), every field whose read failed keeps its previous
value, and the aggregate failure indication (negative return) is raised
if and only if at least one of the 9 reads failed. -/
theorem C7_batch_reads_best_effort
    (o0 o1 o2 o3 o4 o5 o6 o7 o8 q0 q1 q2 q3 q4 q5 q6 q7 q8 : Option Nat)
    (p : mxl371x_priv) :
    (mxl371x_read_moca_status listMemRd p ([o0, o1, o2, o3, o4, o5, o6, o7, o8], [])).2.2 =
      ([], [MOCA_LINK_STATUS_REG, MOCA_LINK_PHY_RATE_REG, MOCA_LINK_MOCA_VER_REG,
        MOCA_LINK_NODE_ID_REG, MOCA_LINK_NC_NODE_ID_REG, MOCA_LINK_LOF_REG,
        MOCA_LINK_NETWORK_STATE_REG, MOCA_LINK_ACTIVE_NODES_REG,
        MOCA_SECURITY_STATUS_REG]) ∧
    (mxl371x_read_moca_status listMemRd p ([o0, o1, o2, o3, o4, o5, o6, o7, o8], [])).2.1.link_status =
      (match o0 with | some v => v &&& MOCA_LINK_STATUS_MASK | none => p.link_status) ∧
    (mxl371x_read_moca_status listMemRd p ([o0, o1, o2, o3, o4, o5, o6, o7, o8], [])).2.1.phy_rate =
      (match o1 with | some v => v &&& 0xffff | none => p.phy_rate) ∧
    (mxl371x_read_moca_status listMemRd p ([o0, o1, o2, o3, o4, o5, o6, o7, o8], [])).2.1.moca_version =
      (match o2 with | some v => v &&& 0xff | none => p.moca_version) ∧
    (mxl371x_read_moca_status listMemRd p ([o0, o1, o2, o3, o4, o5, o6, o7, o8], [])).2.1.node_id =
      (match o3 with | some v => v &&& 0xff | none => p.node_id) ∧
    (mxl371x_read_moca_status listMemRd p ([o0, o1, o2, o3, o4, o5, o6, o7, o8], [])).2.1.nc_node_id =
      (match o4 with | some v => v &&& 0xff | none => p.nc_node_id) ∧
    (mxl371x_read_moca_status listMemRd p ([o0, o1, o2, o3, o4, o5, o6, o7, o8], [])).2.1.lof =
      (match o5 with | some v => v | none => p.lof) ∧
    (mxl371x_read_moca_status listMemRd p ([o0, o1, o2, o3, o4, o5, o6, o7, o8], [])).2.1.network_state =
      (match o6 with | some v => v &&& 0xff | none => p.network_state) ∧
    (mxl371x_read_moca_status listMemRd p ([o0, o1, o2, o3, o4, o5, o6, o7, o8], [])).2.1.active_nodes =
      (match o7 with | some v => v | none => p.active_nodes) ∧
    (mxl371x_read_moca_status listMemRd p ([o0, o1, o2, o3, o4, o5, o6, o7, o8], [])).2.1.security_enabled =
      (match o8 with | some v => decide (v &&& MOCA_SECURITY_ENABLED ≠ 0) | none => p.security_enabled) ∧
    (mxl371x_read_moca_status listMemRd p ([o0, o1, o2, o3, o4, o5, o6, o7, o8], [])).2.1.fw_loaded = p.fw_loaded ∧
    (mxl371x_read_moca_status listMemRd p ([o0, o1, o2, o3, o4, o5, o6, o7, o8], [])).2.1.stats = p.stats ∧
    ((mxl371x_read_moca_status listMemRd p ([o0, o1, o2, o3, o4, o5, o6, o7, o8], [])).1 < 0 ↔
      (o0 = none ∨ o1 = none ∨ o2 = none ∨ o3 = none ∨ o4 = none ∨
        o5 = none ∨ o6 = none ∨ o7 = none ∨ o8 = none)) ∧
    (mxl371x_update_stats listMemRd p ([q0, q1, q2, q3, q4, q5, q6, q7, q8], [])).2.2 =
      ([], [MOCA_STATS_TX_TOTAL_PKTS, MOCA_STATS_TX_TOTAL_BYTES,
        MOCA_STATS_TX_DROPPED_PKTS, MOCA_STATS_TX_BCAST_PKTS,
        MOCA_STATS_TX_MCAST_PKTS, MOCA_STATS_RX_TOTAL_PKTS,
        MOCA_STATS_RX_TOTAL_BYTES, MOCA_STATS_RX_DROPPED_PKTS,
        MOCA_STATS_RX_ERROR_PKTS]) ∧
    (mxl371x_update_stats listMemRd p ([q0, q1, q2, q3, q4, q5, q6, q7, q8], [])).2.1.stats.tx_packets =
      (match q0 with | some v => v | none => p.stats.tx_packets) ∧
    (mxl371x_update_stats listMemRd p ([q0, q1, q2, q3, q4, q5, q6, q7, q8], [])).2.1.stats.tx_bytes =
      (match q1 with | some v => v | none => p.stats.tx_bytes) ∧
    (mxl371x_update_stats listMemRd p ([q0, q1, q2, q3, q4, q5, q6, q7, q8], [])).2.1.stats.tx_dropped =
      (match q2 with | some v => v | none => p.stats.tx_dropped) ∧
    (mxl371x_update_stats listMemRd p ([q0, q1, q2, q3, q4, q5, q6, q7, q8], [])).2.1.stats.tx_broadcast =
      (match q3 with | some v => v | none => p.stats.tx_broadcast) ∧
    (mxl371x_update_stats listMemRd p ([q0, q1, q2, q3, q4, q5, q6, q7, q8], [])).2.1.stats.tx_multicast =
      (match q4 with | some v => v | none => p.stats.tx_multicast) ∧
    (mxl371x_update_stats listMemRd p ([q0, q1, q2, q3, q4, q5, q6, q7, q8], [])).2.1.stats.rx_packets =
      (match q5 with | some v => v | none => p.stats.rx_packets) ∧
    (mxl371x_update_stats listMemRd p ([q0, q1, q2, q3, q4, q5, q6, q7, q8], [])).2.1.stats.rx_bytes =
      (match q6 with | some v => v | none => p.stats.rx_bytes) ∧
    (mxl371x_update_stats listMemRd p ([q0, q1, q2, q3, q4, q5, q6, q7, q8], [])).2.1.stats.rx_dropped =
      (match q7 with | some v => v | none => p.stats.rx_dropped) ∧
    (mxl371x_update_stats listMemRd p ([q0, q1, q2, q3, q4, q5, q6, q7, q8], [])).2.1.stats.rx_errors =
      (match q8 with | some v => v | none => p.stats.rx_errors) ∧
    (mxl371x_update_stats listMemRd p ([q0, q1, q2, q3, q4, q5, q6, q7, q8], [])).2.1.fw_loaded = p.fw_loaded ∧
    ((mxl371x_update_stats listMemRd p ([q0, q1, q2, q3, q4, q5, q6, q7, q8], [])).1 < 0 ↔
      (q0 = none ∨ q1 = none ∨ q2 = none ∨ q3 = none ∨ q4 = none ∨
        q5 = none ∨ q6 = none ∨ q7 = none ∨ q8 = none)) := by
  refine ⟨?_, ?_, ?_, ?_, ?_, ?_, ?_, ?_, ?_, ?_, ?_, ?_, ?_, ?_, ?_, ?_, ?_, ?_, ?_, ?_, ?_, ?_, ?_, ?_, ?_⟩
  · simp [mxl371x_read_moca_status, listMemRd, fst_ite, snd_ite]
  · rcases o0 with _ | v <;>
      simp [mxl371x_read_moca_status, listMemRd, schedRet, schedVal, fst_ite, snd_ite,
        ite_fw_loaded, ite_link_status, ite_moca_version, ite_phy_rate, ite_node_id, ite_nc_node_id, ite_lof, ite_network_state, ite_active_nodes, ite_security_enabled, ite_stats, EIO_code]
  · rcases o1 with _ | v <;>
      simp [mxl371x_read_moca_status, listMemRd, schedRet, schedVal, fst_ite, snd_ite,
        ite_fw_loaded, ite_link_status, ite_moca_version, ite_phy_rate, ite_node_id, ite_nc_node_id, ite_lof, ite_network_state, ite_active_nodes, ite_security_enabled, ite_stats, EIO_code]
  · rcases o2 with _ | v <;>
      simp [mxl371x_read_moca_status, listMemRd, schedRet, schedVal, fst_ite, snd_ite,
        ite_fw_loaded, ite_link_status, ite_moca_version, ite_phy_rate, ite_node_id, ite_nc_node_id, ite_lof, ite_network_state, ite_active_nodes, ite_security_enabled, ite_stats, EIO_code]
  · rcases o3 with _ | v <;>
      simp [mxl371x_read_moca_status, listMemRd, schedRet, schedVal, fst_ite, snd_ite,
        ite_fw_loaded, ite_link_status, ite_moca_version, ite_phy_rate, ite_node_id, ite_nc_node_id, ite_lof, ite_network_state, ite_active_nodes, ite_security_enabled, ite_stats, EIO_code]
  · rcases o4 with _ | v <;>
      simp [mxl371x_read_moca_status, listMemRd, schedRet, schedVal, fst_ite, snd_ite,
        ite_fw_loaded, ite_link_status, ite_moca_version, ite_phy_rate, ite_node_id, ite_nc_node_id, ite_lof, ite_network_state, ite_active_nodes, ite_security_enabled, ite_stats, EIO_code]
  · rcases o5 with _ | v <;>
      simp [mxl371x_read_moca_status, listMemRd, schedRet, schedVal, fst_ite, snd_ite,
        ite_fw_loaded, ite_link_status, ite_moca_version, ite_phy_rate, ite_node_id, ite_nc_node_id, ite_lof, ite_network_state, ite_active_nodes, ite_security_enabled, ite_stats, EIO_code]
  · rcases o6 with _ | v <;>
      simp [mxl371x_read_moca_status, listMemRd, schedRet, schedVal, fst_ite, snd_ite,
        ite_fw_loaded, ite_link_status, ite_moca_version, ite_phy_rate, ite_node_id, ite_nc_node_id, ite_lof, ite_network_state, ite_active_nodes, ite_security_enabled, ite_stats, EIO_code]
  · rcases o7 with _ | v <;>
      simp [mxl371x_read_moca_status, listMemRd, schedRet, schedVal, fst_ite, snd_ite,
        ite_fw_loaded, ite_link_status, ite_moca_version, ite_phy_rate, ite_node_id, ite_nc_node_id, ite_lof, ite_network_state, ite_active_nodes, ite_security_enabled, ite_stats, EIO_code]
  · rcases o8 with _ | v <;>
      simp [mxl371x_read_moca_status, listMemRd, schedRet, schedVal, fst_ite, snd_ite,
        ite_fw_loaded, ite_link_status, ite_moca_version, ite_phy_rate, ite_node_id, ite_nc_node_id, ite_lof, ite_network_state, ite_active_nodes, ite_security_enabled, ite_stats, EIO_code]
  · simp [mxl371x_read_moca_status, listMemRd, fst_ite, snd_ite,
      ite_fw_loaded, ite_link_status, ite_moca_version, ite_phy_rate, ite_node_id, ite_nc_node_id, ite_lof, ite_network_state, ite_active_nodes, ite_security_enabled, ite_stats]
  · simp [mxl371x_read_moca_status, listMemRd, fst_ite, snd_ite,
      ite_fw_loaded, ite_link_status, ite_moca_version, ite_phy_rate, ite_node_id, ite_nc_node_id, ite_lof, ite_network_state, ite_active_nodes, ite_security_enabled, ite_stats]
  · simp only [mxl371x_read_moca_status, listMemRd, fst_ite, snd_ite,
      List.headD_cons, List.tail_cons]
    simp only [ret_step_lt]
    simp
    tauto
  · simp [mxl371x_update_stats, listMemRd]
  · rcases q0 with _ | v <;>
      simp [mxl371x_update_stats, listMemRd, schedRet, schedVal]
  · rcases q1 with _ | v <;>
      simp [mxl371x_update_stats, listMemRd, schedRet, schedVal]
  · rcases q2 with _ | v <;>
      simp [mxl371x_update_stats, listMemRd, schedRet, schedVal]
  · rcases q3 with _ | v <;>
      simp [mxl371x_update_stats, listMemRd, schedRet, schedVal]
  · rcases q4 with _ | v <;>
      simp [mxl371x_update_stats, listMemRd, schedRet, schedVal]
  · rcases q5 with _ | v <;>
      simp [mxl371x_update_stats, listMemRd, schedRet, schedVal]
  · rcases q6 with _ | v <;>
      simp [mxl371x_update_stats, listMemRd, schedRet, schedVal]
  · rcases q7 with _ | v <;>
      simp [mxl371x_update_stats, listMemRd, schedRet, schedVal]
  · rcases q8 with _ | v <;>
      simp [mxl371x_update_stats, listMemRd, schedRet, schedVal]
  · simp [mxl371x_update_stats, listMemRd]
  · simp only [mxl371x_update_stats, listMemRd, List.headD_cons, List.tail_cons]
    simp only [int_lor_lt_zero, schedRet_lt_zero]
    tauto

/-! ## GUID resolver (mxl371x.c lines 520–589) -/

/-- Which branch of the GUID priority chain selected the value (the
branches are distinguished in the source by their `dev_info`
messages). -/
inductive GuidSource where
  | existing : GuidSource
  | devicetree : GuidSource
  | netdev : GuidSource
  | random : GuidSource
deriving DecidableEq

/-- The GUID resolver's collaborators: the optional device-tree MAC
(`of_get_mac_address`), the optional attached-netdev MAC, and the bytes
`get_random_bytes` would produce. -/
structure GuidEnv where
  of_mac : Option (List Nat)
  netdev_mac : Option (List Nat)
  rng : List Nat

def is_zero_ether_addr (mac : List Nat) : Bool := mac.all (fun b => b = 0)

/-- The `set_guid:` tail of `mxl371x_set_default_guid`: pack the 6 MAC
bytes into the two registers (high 4 bytes; low 2 bytes top-aligned)
and write them back. -/
def mxl371x_guid_commit {σ : Type} (B : Bus σ) (mac : List Nat) (src : GuidSource)
    (s : σ) : Int × GuidSource × σ :=
  let mac_hi := (mac.getD 0 0 <<< 24) ||| (mac.getD 1 0 <<< 16) |||
    (mac.getD 2 0 <<< 8) ||| mac.getD 3 0
  let mac_lo := (mac.getD 4 0 <<< 24) ||| (mac.getD 5 0 <<< 16)
  let (r, s) := mxl371x_write_mem32 B s MOCA_MAC_ADDR_HI mac_hi
  if r < 0 then (r, src, s)
  else
    let (r, s) := mxl371x_write_mem32 B s MOCA_MAC_ADDR_LO mac_lo
    if r < 0 then (r, src, s)
    else (0, src, s)

/-- Step 4 of the priority chain: MaxLinear OUI with the locally
administered bit, followed by 3 random bytes. -/
def mxl371x_guid_random {σ : Type} (B : Bus σ) (env : GuidEnv) (s : σ) :
    Int × GuidSource × σ :=
  mxl371x_guid_commit B
    [0x02, 0x24, 0x3e, env.rng.getD 0 0, env.rng.getD 1 0, env.rng.getD 2 0]
    .random s

/-- Steps 2–4 of the priority chain (device tree, then attached netdev
with the locally-administered bit set and the last bit flipped, then
random generation). -/
def mxl371x_guid_fallback {σ : Type} (B : Bus σ) (env : GuidEnv) (s : σ) :
    Int × GuidSource × σ :=
  match env.of_mac with
  | some mac => mxl371x_guid_commit B mac .devicetree s
  | none =>
    match env.netdev_mac with
    | some nd =>
      if is_zero_ether_addr nd then mxl371x_guid_random B env s
      else
        mxl371x_guid_commit B
          [nd.getD 0 0 ||| 0x02, nd.getD 1 0, nd.getD 2 0, nd.getD 3 0, nd.getD 4 0,
            nd.getD 5 0 ^^^ 0x01] .netdev s
    | none => mxl371x_guid_random B env s

/-- Embedding of `mxl371x_set_default_guid` (steps 1–4).  Note the
source structure: the low GUID register is read only when the high
register read succeeded **and was non-zero**; in every other case
control falls through to the later steps of the chain. -/
def mxl371x_set_default_guid {σ : Type} (B : Bus σ) (env : GuidEnv) (s : σ) :
    Int × GuidSource × σ :=
  let (r, mac_hi, s) := mxl371x_read_mem32 B s MOCA_MAC_ADDR_HI 0
  if r = 0 ∧ mac_hi ≠ 0 then
    let (r2, mac_lo, s) := mxl371x_read_mem32 B s MOCA_MAC_ADDR_LO 0
    if r2 = 0 ∧ (mac_hi ≠ 0 ∨ mac_lo ≠ 0) then (0, .existing, s)
    else mxl371x_guid_fallback B env s
  else mxl371x_guid_fallback B env s

/-- **C6 counterexample**: on a fake bus whose high GUID register holds
0 and whose low GUID register holds 5 — so one of the two GUID
registers reads back non-zero — with no device-tree and no netdev MAC
available, the resolver nevertheless reaches the random-generation
path (and writes a generated GUID back), because the source never
reads the low register when the high register is zero.  This refutes
the claim as stated. -/
theorem C6_guid_counterexample :
    (mxl371x_read_mem32 fakeBus
      ⟨.idle, fun a => if a = MOCA_MAC_ADDR_LO then 5 else 0⟩ MOCA_MAC_ADDR_LO 0).1 = 0 ∧
    (mxl371x_read_mem32 fakeBus
      ⟨.idle, fun a => if a = MOCA_MAC_ADDR_LO then 5 else 0⟩ MOCA_MAC_ADDR_LO 0).2.1 = 5 ∧
    (mxl371x_set_default_guid fakeBus ⟨none, none, [0xab, 0xcd, 0xef]⟩
      ⟨.idle, fun a => if a = MOCA_MAC_ADDR_LO then 5 else 0⟩).2.1 = GuidSource.random :=
  ⟨rfl, rfl, rfl⟩

/-- **C6 (amended)** GUID priority, step 1: whenever the read of the
**high** GUID register succeeds with a non-zero value and the
subsequent read of the low register succeeds, the resolver keeps the
existing hardware value: it returns success with source `existing`,
performs no write-back (the bus state is exactly the state `s2` after
the two reads), and never reaches the random-generation path. -/
theorem C6_guid_existing_priority {σ : Type} (B : Bus σ) (env : GuidEnv) (s : σ)
    (hi : Nat) (s1 : σ)
    (h1 : mxl371x_read_mem32 B s MOCA_MAC_ADDR_HI 0 = (0, hi, s1))
    (hhi : hi ≠ 0)
    (lo : Nat) (s2 : σ)
    (h2 : mxl371x_read_mem32 B s1 MOCA_MAC_ADDR_LO 0 = (0, lo, s2)) :
    mxl371x_set_default_guid B env s = (0, GuidSource.existing, s2) := by
  simp [mxl371x_set_default_guid, h1, h2, hhi]

/-- **C6 witness**: fake bus with high GUID register 7 (low register
0): the resolver returns the state after exactly the two register
reads, with source `existing`. -/
theorem C6_guid_existing_priority_witness :
    mxl371x_set_default_guid fakeBus ⟨some [1, 2, 3, 4, 5, 6], none, [9, 9, 9]⟩
      ⟨.idle, fun a => if a = MOCA_MAC_ADDR_HI then 7 else 0⟩ =
      (0, GuidSource.existing,
        ⟨.addressed MOCA_MAC_ADDR_LO, fun a => if a = MOCA_MAC_ADDR_HI then 7 else 0⟩) :=
  C6_guid_existing_priority fakeBus ⟨some [1, 2, 3, 4, 5, 6], none, [9, 9, 9]⟩
    ⟨.idle, fun a => if a = MOCA_MAC_ADDR_HI then 7 else 0⟩ 7
    ⟨.addressed MOCA_MAC_ADDR_HI, fun a => if a = MOCA_MAC_ADDR_HI then 7 else 0⟩
    rfl (by norm_num) 0
    ⟨.addressed MOCA_MAC_ADDR_LO, fun a => if a = MOCA_MAC_ADDR_HI then 7 else 0⟩
    rfl

/-! ## Suspend/resume, status polling (mxl371x.c lines 386–399, 1163–1202) -/

/-- Embedding of `mxl371x_suspend`: cancels the stats poller and calls
`genphy_suspend`; no field of the private state is written. -/
def mxl371x_suspend (p : mxl371x_priv) : mxl371x_priv := p

/-- Embedding of `mxl371x_resume`: clears `fw_loaded` (forcing a
firmware reload), reschedules the poller and calls `genphy_resume`. -/
def mxl371x_resume (p : mxl371x_priv) : mxl371x_priv :=
  { p with fw_loaded := false }

/-- Embedding of `mxl371x_read_status`: `genphy_ret` is the result of
the `genphy_read_status` collaborator; when firmware is loaded the MoCA
status is refreshed and `phydev->link` (the `Option Bool` component;
`none` = untouched) is derived from it. -/
def mxl371x_read_status {σ : Type} (B : Bus σ) (genphy_ret : Int)
    (p : mxl371x_priv) (s : σ) : Int × Option Bool × mxl371x_priv × σ :=
  if genphy_ret < 0 then (genphy_ret, none, p, s)
  else if p.fw_loaded then
    let (_, p, s) := mxl371x_read_moca_status (fun s a v => mxl371x_read_mem32 B s a v) p s
    (0, some (decide (p.link_status = MOCA_LINK_UP)), p, s)
  else (0, none, p, s)

/-- Embedding of one tick of `mxl371x_stats_poll_work`: refresh the
statistics and the MoCA status when firmware is loaded and a netdev is
attached (rescheduling has no bus- or priv-visible effect). -/
def mxl371x_stats_poll_work {σ : Type} (B : Bus σ) (attached : Bool)
    (p : mxl371x_priv) (s : σ) : mxl371x_priv × σ :=
  if p.fw_loaded && attached then
    let (_, p, s) := mxl371x_update_stats (fun s a v => mxl371x_read_mem64 B s a v) p s
    let (_, p, s) := mxl371x_read_moca_status (fun s a v => mxl371x_read_mem32 B s a v) p s
    (p, s)
  else (p, s)

lemma read_moca_status_fw_loaded {σ : Type} (rd32 : σ → Nat → Nat → Int × Nat × σ)
    (p : mxl371x_priv) (s : σ) :
    (mxl371x_read_moca_status rd32 p s).2.1.fw_loaded = p.fw_loaded := by
  simp [mxl371x_read_moca_status, fst_ite, snd_ite, ite_fw_loaded]

lemma update_stats_fw_loaded {σ : Type} (rd64 : σ → Nat → Nat → Int × Nat × σ)
    (p : mxl371x_priv) (s : σ) :
    (mxl371x_update_stats rd64 p s).2.1.fw_loaded = p.fw_loaded := by
  simp [mxl371x_update_stats]

/-- The firmware-state-relevant fragment of `mxl371x_config_init`
(lines 1083–1095): warm-boot detection (setting `fw_loaded` when the
firmware already runs) followed by the loader. -/
def mxl371x_config_init_fw {σ : Type} (B : Bus σ) (fw_request : Except Int (List Nat))
    (p : mxl371x_priv) (s : σ) : Int × mxl371x_priv × σ :=
  let (run, s) := mxl371x_check_firmware_running B s
  let p := if run ≠ 0 then { p with fw_loaded := true } else p
  mxl371x_load_firmware B fw_request p s

/-- **C8 counterexample**: `mxl371x_resume` — which is not part of the
firmware-load path — sets the firmware state from Loaded back to
NotLoaded, so the loader is *not* the only operation that modifies
it. -/
theorem C8_fw_state_counterexample :
    privLoaded.fw_loaded = true ∧ (mxl371x_resume privLoaded).fw_loaded = false :=
  ⟨rfl, rfl⟩

/-- **C8 (amended)**: the firmware-loaded state is modified only by the
firmware-load path and by the resume handler: `mxl371x_resume` resets
it to NotLoaded (so firmware is reloaded after suspend); the loader
either leaves the private state untouched or marks firmware loaded;
and every other modelled operation — suspend, the status reader, the
statistics reader, the link-status handler and the poller tick —
preserves it. -/
theorem C8_fw_state_transitions {σ : Type} (B : Bus σ)
    (fw_request : Except Int (List Nat)) (genphy_ret : Int) (attached : Bool)
    (rd32 rd64 : σ → Nat → Nat → Int × Nat × σ) (p : mxl371x_priv) (s : σ) :
    (mxl371x_resume p).fw_loaded = false ∧
    mxl371x_suspend p = p ∧
    (mxl371x_read_moca_status rd32 p s).2.1.fw_loaded = p.fw_loaded ∧
    (mxl371x_update_stats rd64 p s).2.1.fw_loaded = p.fw_loaded ∧
    (mxl371x_read_status B genphy_ret p s).2.2.1.fw_loaded = p.fw_loaded ∧
    (mxl371x_stats_poll_work B attached p s).1.fw_loaded = p.fw_loaded ∧
    ((mxl371x_load_firmware B fw_request p s).2.1 = p ∨
      (mxl371x_load_firmware B fw_request p s).2.1 = { p with fw_loaded := true }) ∧
    ((mxl371x_config_init_fw B fw_request p s).2.1 = p ∨
      (mxl371x_config_init_fw B fw_request p s).2.1 = { p with fw_loaded := true }) := by
  have hload : ∀ q s₀, (mxl371x_load_firmware B fw_request q s₀).2.1 = q ∨
      (mxl371x_load_firmware B fw_request q s₀).2.1 = { q with fw_loaded := true } := by
    intro q s₀
    simp only [mxl371x_load_firmware]
    (repeat' split) <;> first | (left; rfl) | (right; rfl)
  refine ⟨rfl, rfl, read_moca_status_fw_loaded rd32 p s, update_stats_fw_loaded rd64 p s,
    ?_, ?_, hload p s, ?_⟩
  · rw [mxl371x_read_status]
    split
    · rfl
    · split
      · simp only [read_moca_status_fw_loaded]
      · rfl
  · rw [mxl371x_stats_poll_work]
    split
    · simp only [read_moca_status_fw_loaded, update_stats_fw_loaded]
    · rfl
  · simp only [mxl371x_config_init_fw]
    split
    · rename_i hrun
      rcases hload { p with fw_loaded := true } (mxl371x_check_firmware_running B s).2 with h | h
      · right
        rw [h]
      · right
        rw [h]
    · exact hload p (mxl371x_check_firmware_running B s).2
